import Mathlib

/-!
Verification of the serial transport engine of `lib_atlas`
(`src/lib_atlas/io/details/serial_impl_inl.h`).

The C++ implementation is shallowly embedded: the state of the
`Serial::SerialImpl` object is a structure, every OS interaction is fed
in through explicit observation lists (one entry per loop iteration or
per system call), and each method becomes a pure Lean function on that
state and those observations.  Machine arithmetic that can wrap in the
source (the 32-bit byte-time product) is modelled with an explicit
modulus.  The declarations of the configuration enums and of the
`Timeout` class live in headers that are not among the sources here;
their numeric content is modelled from the specification and each such
definition says so in its documentation string.
-/

namespace Atlas

/-- Character size of the serial frames (`bytesize_t`). -/
inductive bytesize_t
  | fivebits
  | sixbits
  | sevenbits
  | eightbits
  deriving DecidableEq, Repr

/-- Modelled from the spec: the numeric value of each `bytesize_t`
enumerator (the header declaring the enum is not among the sources).
The spec gives the byte size as one of 5, 6, 7, 8 bits per character and
the byte-time formula uses the configured character size in bits. -/
def bytesize_t.val : bytesize_t → Nat
  | .fivebits => 5
  | .sixbits => 6
  | .sevenbits => 7
  | .eightbits => 8

/-- Parity type of the serial frames (`parity_t`). -/
inductive parity_t
  | parity_none
  | parity_odd
  | parity_even
  | parity_mark
  | parity_space
  deriving DecidableEq, Repr

/-- Modelled from the spec: the numeric contribution of the parity
setting to the byte-time product (the header declaring `parity_t` is not
among the sources).  The spec states the estimate as
`(1e9 / baud_rate) * (1 + byte_size_bits + parity_bits + stop_bits)`,
parity contributing the number of parity bits on the wire: 0 when parity
is disabled and 1 for any enabled parity. -/
def parity_t.parityBits : parity_t → Nat
  | .parity_none => 0
  | _ => 1

/-- Number of stop bits of the serial frames (`stopbits_t`). -/
inductive stopbits_t
  | stopbits_one
  | stopbits_two
  | stopbits_one_point_five
  deriving DecidableEq, Repr

/-- Numeric value of each `stopbits_t` enumerator.  The comment in
`ReconfigurePort` states that `stopbits_one_point_five` equals the int 3
and compensates for that; `stopbits_one` and `stopbits_two` enter the
byte-time product as the stop bit counts 1 and 2 (the spec lists the
stop bit setting as one of 1, 1.5, 2). -/
def stopbits_t.val : stopbits_t → Nat
  | .stopbits_one => 1
  | .stopbits_two => 2
  | .stopbits_one_point_five => 3

/-- Flow control discipline (`flowcontrol_t`). -/
inductive flowcontrol_t
  | flowcontrol_none
  | flowcontrol_software
  | flowcontrol_hardware
  deriving DecidableEq, Repr

/-- The five timeout fields of the transfer engine (`class Timeout`). -/
structure Timeout where
  inter_byte_timeout : Nat
  read_timeout_constant : Nat
  read_timeout_multiplier : Nat
  write_timeout_constant : Nat
  write_timeout_multiplier : Nat
  deriving DecidableEq, Repr

/-- Modelled from the spec: the distinguished maximum sentinel value of
`inter_byte_timeout` (the `Timeout` class declaration is not among the
sources).  The timeout fields are 32-bit; the sentinel is the largest
32-bit value. -/
def Timeout.max : Nat := 4294967295

/-- The error conditions raised by the implementation, one constructor
per exception class of the source. -/
inductive SerialError
  | invalidArgumentErr (msg : String)
  | serialException (msg : String)
  | ioException (msg : String)
  | portNotOpened (who : String)
  deriving DecidableEq, Repr

/-- The member state of `Serial::SerialImpl`. -/
structure SerialImpl where
  port_ : String
  fd_ : Int
  is_open_ : Bool
  xonxoff_ : Bool
  rtscts_ : Bool
  baudrate_ : Nat
  parity_ : parity_t
  bytesize_ : bytesize_t
  stopbits_ : stopbits_t
  flowcontrol_ : flowcontrol_t
  timeout_ : Timeout
  byte_time_ns_ : Nat
  deriving DecidableEq, Repr

/-- 2 to the power 32.  The byte-time product in `ReconfigurePort` is
computed in 32-bit unsigned arithmetic (`uint32_t bit_time_ns` times the
int factor), so it wraps at this modulus. -/
def U32 : Nat := 4294967296

/-- One bit time in nanoseconds: `uint32_t bit_time_ns = 1e9 / baudrate_`.
For every positive baud rate the double division truncated to an integer
coincides with natural division: the exact quotient is below 2^30, its
distance to the nearest other integer is at least `1 / baud`, and the
rounding error of the division is strictly smaller than that. -/
def bitTimeNs (baud : Nat) : Nat := 1000000000 / baud

/-- The byte-time estimate recomputed at the end of `ReconfigurePort`:
`byte_time_ns_ = bit_time_ns * (1 + bytesize_ + parity_ + stopbits_)` in
32-bit arithmetic; then, only for `stopbits_one_point_five`, the source
adds the corrective addend `(1.5 - 3) * bit_time_ns` through double
arithmetic, which amounts to subtracting `(3 * bit + 1) / 2` (truncation
toward zero of a value of the form `x - 1.5 * bit`). -/
def byteTimeNs (baud : Nat) (bs : bytesize_t) (p : parity_t) (sb : stopbits_t) : Nat :=
  if sb = stopbits_t.stopbits_one_point_five then
    (bitTimeNs baud * (1 + bs.val + p.parityBits + sb.val)) % U32
      - (3 * bitTimeNs baud + 1) / 2
  else
    (bitTimeNs baud * (1 + bs.val + p.parityBits + sb.val)) % U32

/-- The baud rates with enumerated constants available on the Linux
host: the `#ifdef` guarded cases of the baud switch in `ReconfigurePort`
whose `B...` constant Linux termios defines.  Any other rate takes the
custom-divisor ioctl path. -/
def standardBauds : List Nat :=
  [0, 50, 75, 110, 134, 150, 200, 300, 600, 1200, 1800, 2400, 4800,
   9600, 19200, 38400, 57600, 115200, 230400, 460800, 576000, 921600,
   1000000, 1152000, 1500000, 2000000, 2500000, 3000000, 3500000, 4000000]

/-- The results of the OS calls made by `ReconfigurePort` that the model
does not compute itself.  The result of `tcsetattr` is recorded here
because the source calls it without ever examining the return value. -/
structure ReconfigOracle where
  tcgetattrOk : Bool
  customBaudOk : Bool
  tcsetattrResult : Int
  deriving DecidableEq, Repr

/-- `ReconfigurePort`, modelled on the Linux host (TIOCSSERIAL and
CMSPAR available, so every parity enumerator is accepted and custom baud
rates take the ioctl path; every enumerator of the configuration enums
is one of the valid cases of the source, so the `invalid ...` throws of
the switch statements have no counterpart here).  The termios flag words
themselves are not tracked: no claim inspects them, the model keeps the
member fields the spec tracks.  The call order of the source is kept:
descriptor check, `tcgetattr`, baud setup (failing only on the custom
path when the ioctls fail), flow control flags, then `tcsetattr` whose
result `o.tcsetattrResult` is ignored, and finally the recomputation of
`byte_time_ns_`. -/
def ReconfigurePort (st : SerialImpl) (o : ReconfigOracle) : Except SerialError SerialImpl :=
  if st.fd_ = -1 then
    .error (.ioException "Invalid file descriptor, is the serial port open?")
  else if o.tcgetattrOk = false then
    .error (.ioException "tcgetattr")
  else if standardBauds.contains st.baudrate_ = false ∧ o.customBaudOk = false then
    .error (.ioException "ioctl TIOCSSERIAL errno")
  else
    .ok { st with
          xonxoff_ := decide (st.flowcontrol_ = flowcontrol_t.flowcontrol_software),
          rtscts_ := decide (st.flowcontrol_ = flowcontrol_t.flowcontrol_hardware),
          byte_time_ns_ := byteTimeNs st.baudrate_ st.bytesize_ st.parity_ st.stopbits_ }

/-- `Close`: returns the new state and the raised error, if any.  In the
source, when `::close` reports an error the IOException is thrown before
the line `is_open_ = false` is reached, so the open flag survives a
failed close; `fd_` is cleared only on success. -/
def SerialClose (st : SerialImpl) (closeRet : Int) : SerialImpl × Option SerialError :=
  if st.is_open_ = true then
    if st.fd_ ≠ -1 then
      if closeRet = 0 then
        ({ st with fd_ := -1, is_open_ := false }, none)
      else
        (st, some (.ioException "close errno"))
    else
      ({ st with is_open_ := false }, none)
  else
    (st, none)

/-- Result of one `::open` attempt inside `Open`. -/
inductive OpenAttempt
  | eintr
  | tooManyFiles
  | otherErr (e : Nat)
  | okFd (fd : Int)
  deriving DecidableEq, Repr

/-- Generic result of a modelled call: a value, a raised error, or
exhaustion of the observation list (`fuel` is a bound of the model, not
a behavior of the source). -/
inductive Res (α : Type)
  | ok (a : α)
  | err (e : SerialError)
  | fuel
  deriving DecidableEq, Repr

/-- The attempt sequence of `Open` after the precondition checks.  An
EINTR result makes the source call `Open()` again recursively; the model
expresses that call by recursing on the remaining attempts.  ENFILE and
EMFILE raise the distinct too-many-handles condition, any other errno a
generic IOException.  On a successful descriptor the port is
reconfigured and only then marked open. -/
def openAttemptsLoop (st : SerialImpl) (ro : ReconfigOracle) : List OpenAttempt → Res SerialImpl
  | [] => .fuel
  | .eintr :: rest => openAttemptsLoop st ro rest
  | .tooManyFiles :: _ => .err (.ioException "Too many file handles open.")
  | .otherErr e :: _ => .err (.ioException (toString e))
  | .okFd fd :: _ =>
    match ReconfigurePort { st with fd_ := fd } ro with
    | .error e => .err e
    | .ok st2 => .ok { st2 with is_open_ := true }

/-- `Open`: an empty port name is an invalid argument, an already open
port is a SerialException, otherwise the attempt sequence runs. -/
def SerialOpen (st : SerialImpl) (ro : ReconfigOracle) (attempts : List OpenAttempt) :
    Res SerialImpl :=
  if st.port_ = "" then .err (.invalidArgumentErr "Empty port is invalid.")
  else if st.is_open_ = true then .err (.serialException "Serial port already open.")
  else openAttemptsLoop st ro attempts

/-- Number of nested `Open()` stack frames alive when an attempt
sequence resolves: each EINTR result triggers one further recursive call
before the final attempt returns. -/
def openCallDepth : List OpenAttempt → Nat
  | [] => 0
  | .eintr :: rest => 1 + openCallDepth rest
  | _ :: _ => 1

/-- Outcome of one `pselect` based readiness wait. -/
inductive WaitOutcome
  | ready
  | timedOut
  | interrupted
  | selectError
  | fdNotSet
  deriving DecidableEq, Repr

/-- The observations of one iteration of the `Read` loop: the elapsed
milliseconds of the deadline timer at the loop head, the outcome of the
readiness wait, the result of the `TIOCINQ` byte-count ioctl used by the
coalescing optimization (`none` is an ioctl failure) and the result of
the `::read` transfer attempt. -/
structure ReadIter where
  elapsed_ms : Nat
  wait : WaitOutcome
  avail : Option Nat
  readResult : Int
  deriving DecidableEq, Repr

/-- The externally visible actions of a `Read` or `Write` call, in
order. -/
inductive Action
  | prefillRead (res : Int)
  | waitReadable (ms : Nat)
  | byteSleep (ns : Nat)
  | transferRead (res : Int)
  | waitWritable (ms : Nat)
  | transferWrite (res : Int)
  deriving DecidableEq, Repr

/-- Result of one loop iteration: break out of the loop with a byte
count, continue with a byte count, or raise an error; each carries the
actions the iteration performed. -/
inductive IterStep
  | brk (bytes : Nat) (trace : List Action)
  | cont (bytes : Nat) (trace : List Action)
  | fail (e : SerialError) (trace : List Action)
  deriving DecidableEq, Repr

/-- The actions performed by an iteration. -/
def IterStep.trace : IterStep → List Action
  | .brk _ tr => tr
  | .cont _ tr => tr
  | .fail _ tr => tr

/-- The error raised by an iteration, if any. -/
def IterStep.error? : IterStep → Option SerialError
  | .fail e _ => some e
  | _ => none

/-- Message of the fatal read-side disconnect fault. -/
def readDisconnectMsg : String :=
  "device reports readiness to read but returned no data (device disconnected?)"

/-- Message of the fatal write-side disconnect fault. -/
def writeDisconnectMsg : String :=
  "device reports readiness to write but returned no data (device disconnected?)"

/-- Message of the read-side over-read invariant violation. -/
def overReadMsg : String := "read over read, too many bytes where read"

/-- Message of the write-side over-write invariant violation. -/
def overWriteMsg : String := "write over wrote, too many bytes where written"

/-- The single `::read` transfer attempt at the end of a ready
iteration: a result below 1 despite readiness is the fatal disconnect
fault; otherwise the count accumulates, reaching the requested size
breaks the loop, staying short continues, and exceeding it raises the
over-read invariant violation. -/
def readTransfer (size bytesRead : Nat) (res : Int) (pre : List Action) : IterStep :=
  if res < 1 then .fail (.serialException readDisconnectMsg) (pre ++ [Action.transferRead res])
  else
    let b := bytesRead + res.toNat
    if b = size then .brk b (pre ++ [Action.transferRead res])
    else if b < size then .cont b (pre ++ [Action.transferRead res])
    else .fail (.serialException overReadMsg) (pre ++ [Action.transferRead res])

/-- One iteration of the `Read` loop: a spent deadline breaks out with
the current count; otherwise the readiness wait runs for the lesser of
the remaining milliseconds (cast to 32 bits, as in the source) and the
inter-byte timeout.  A select error or a ready report without the
descriptor in the set is an IOException; a wait timeout or an
interrupted wait loops again.  On readiness, when the request exceeds
one byte and the inter-byte timeout sits at the maximum sentinel, the
byte-count ioctl runs (a failure raises an IOException) and, when the
known-available plus already-read bytes are still short of the request,
the loop sleeps for the byte-time estimate times the missing count;
finally the transfer attempt runs. -/
def readIterStep (t : Timeout) (byteTime : Nat) (total : Nat) (size : Nat)
    (bytesRead : Nat) (ev : ReadIter) : IterStep :=
  if total ≤ ev.elapsed_ms then
    .brk bytesRead []
  else
    let waitMs := min ((total - ev.elapsed_ms) % U32) t.inter_byte_timeout
    match ev.wait with
    | .selectError => .fail (.ioException "pselect errno") [.waitReadable waitMs]
    | .fdNotSet =>
        .fail (.ioException "select reports ready to read, but our fd is not in the list")
          [.waitReadable waitMs]
    | .timedOut => .cont bytesRead [.waitReadable waitMs]
    | .interrupted => .cont bytesRead [.waitReadable waitMs]
    | .ready =>
      if size > 1 ∧ t.inter_byte_timeout = Timeout.max then
        match ev.avail with
        | none => .fail (.ioException "ioctl TIOCINQ errno") [.waitReadable waitMs]
        | some avail =>
          if avail + bytesRead < size then
            readTransfer size bytesRead ev.readResult
              [.waitReadable waitMs, .byteSleep (byteTime * (size - (avail + bytesRead)))]
          else
            readTransfer size bytesRead ev.readResult [.waitReadable waitMs]
      else
        readTransfer size bytesRead ev.readResult [.waitReadable waitMs]

/-- The `Read` while-loop over the per-iteration observations; it runs
while the accumulated count is below the requested size. -/
def readLoop (t : Timeout) (byteTime : Nat) (total : Nat) (size : Nat) :
    Nat → List ReadIter → Res Nat × List Action
  | b, [] => if b < size then (.fuel, []) else (.ok b, [])
  | b, ev :: rest =>
    if b < size then
      match readIterStep t byteTime total size b ev with
      | .brk b2 tr => (.ok b2, tr)
      | .fail e tr => (.err e, tr)
      | .cont b2 tr =>
        let r := readLoop t byteTime total size b2 rest
        (r.1, tr ++ r.2)
    else (.ok b, [])

/-- Total read deadline in milliseconds: constant plus multiplier times
the requested byte count. -/
def totalReadTimeout (t : Timeout) (size : Nat) : Nat :=
  t.read_timeout_constant + t.read_timeout_multiplier * size

/-- Total write deadline in milliseconds: constant plus multiplier times
the requested byte count. -/
def totalWriteTimeout (t : Timeout) (length : Nat) : Nat :=
  t.write_timeout_constant + t.write_timeout_multiplier * length

/-- `Read`: the not-open check, the deadline computation, the
opportunistic pre-fill `::read` before any wait (results below 1 are
discarded), then the loop.  `prefill` is the result of that first
transfer.  The state is returned unchanged: the source mutates no member
of the implementation object inside `Read`. -/
def SerialRead (st : SerialImpl) (size : Nat) (prefill : Int) (evs : List ReadIter) :
    SerialImpl × Res Nat × List Action :=
  if st.is_open_ = false then
    (st, .err (.portNotOpened "Serial::read"), [])
  else
    let b0 : Nat := if 0 < prefill then prefill.toNat else 0
    let r := readLoop st.timeout_ st.byte_time_ns_ (totalReadTimeout st.timeout_ size) size b0 evs
    (st, r.1, Action.prefillRead prefill :: r.2)

/-- The observations of one iteration of the `Write` loop. -/
structure WriteIter where
  elapsed_ms : Nat
  wait : WaitOutcome
  writeResult : Int
  deriving DecidableEq, Repr

/-- The single `::write` transfer attempt of a ready iteration,
symmetric to the read side. -/
def writeTransfer (length bytesWritten : Nat) (res : Int) (pre : List Action) : IterStep :=
  if res < 1 then .fail (.serialException writeDisconnectMsg) (pre ++ [Action.transferWrite res])
  else
    let b := bytesWritten + res.toNat
    if b = length then .brk b (pre ++ [Action.transferWrite res])
    else if b < length then .cont b (pre ++ [Action.transferWrite res])
    else .fail (.serialException overWriteMsg) (pre ++ [Action.transferWrite res])

/-- One iteration of the `Write` loop: deadline check, `pselect` on the
write set for the whole remaining time, then the dispatch on the select
result: an interrupted wait retries, a select error is an IOException, a
wait timeout breaks out, readiness with the descriptor in the set runs
the transfer, readiness without it is an IOException. -/
def writeIterStep (total : Nat) (length : Nat) (bytesWritten : Nat) (ev : WriteIter) :
    IterStep :=
  if total ≤ ev.elapsed_ms then
    .brk bytesWritten []
  else
    let waitMs := total - ev.elapsed_ms
    match ev.wait with
    | .interrupted => .cont bytesWritten [.waitWritable waitMs]
    | .selectError => .fail (.ioException "pselect errno") [.waitWritable waitMs]
    | .timedOut => .brk bytesWritten [.waitWritable waitMs]
    | .fdNotSet =>
        .fail (.ioException "select reports ready to write, but our fd is not in the list")
          [.waitWritable waitMs]
    | .ready => writeTransfer length bytesWritten ev.writeResult [.waitWritable waitMs]

/-- The `Write` while-loop over the per-iteration observations. -/
def writeLoop (total : Nat) (length : Nat) : Nat → List WriteIter → Res Nat × List Action
  | b, [] => if b < length then (.fuel, []) else (.ok b, [])
  | b, ev :: rest =>
    if b < length then
      match writeIterStep total length b ev with
      | .brk b2 tr => (.ok b2, tr)
      | .fail e tr => (.err e, tr)
      | .cont b2 tr =>
        let r := writeLoop total length b2 rest
        (r.1, tr ++ r.2)
    else (.ok b, [])

/-- `Write`: the not-open check, the deadline computation, then the
loop.  The state is returned unchanged: the source mutates no member of
the implementation object inside `Write`. -/
def SerialWrite (st : SerialImpl) (length : Nat) (evs : List WriteIter) :
    SerialImpl × Res Nat × List Action :=
  if st.is_open_ = false then
    (st, .err (.portNotOpened "Serial::write"), [])
  else
    let r := writeLoop (totalWriteTimeout st.timeout_ length) length 0 evs
    (st, r.1, r.2)

/-- Linux modem status bit for CTS (an OS constant). -/
def TIOCM_CTS : Nat := 32

/-- Linux modem status bit for CD (an OS constant). -/
def TIOCM_CD : Nat := 64

/-- Linux modem status bit for RI (an OS constant). -/
def TIOCM_RI : Nat := 128

/-- Linux modem status bit for DSR (an OS constant). -/
def TIOCM_DSR : Nat := 256

/-- True when any of the four monitored status lines is set in a
TIOCMGET bitmask. -/
def anyModemBit (s : Nat) : Bool :=
  (s &&& TIOCM_CTS != 0) || (s &&& TIOCM_DSR != 0) ||
  (s &&& TIOCM_RI != 0) || (s &&& TIOCM_CD != 0)

/-- The observations of one pass of the polling branch of
`WaitForChange`: the value the pass reads from `is_open_` (another
thread may close the port concurrently) and the TIOCMGET result
(`none` is an ioctl failure). -/
structure PollIter where
  isOpenNow : Bool
  status : Option Nat
  deriving DecidableEq, Repr

/-- A polling pass that keeps the loop going: the port reads open, the
status ioctl succeeds and none of the monitored bits is set. -/
def quietOpenPoll (x : PollIter) : Bool :=
  x.isOpenNow && (match x.status with | some s => !(anyModemBit s) | none => false)

/-- The polling branch of `WaitForChange` (hosts without TIOCMIWAIT):
loop while the open flag reads true; each pass queries TIOCMGET (a
failure raises a SerialException), returns true when any of CTS, DSR,
RI, CD is set, otherwise sleeps 1 ms and polls again; a closed flag
exits the loop and returns false. -/
def waitForChangePolling : List PollIter → Res Bool
  | [] => .fuel
  | it :: rest =>
    if it.isOpenNow = false then .ok false
    else
      match it.status with
      | none => .err (.serialException "waitForChange failed on a call to ioctl TIOCMGET")
      | some s => if anyModemBit s then .ok true else waitForChangePolling rest

/-- The native branch of `WaitForChange` (hosts with TIOCMIWAIT, such as
Linux): one blocking ioctl with no check of the open flag at all; a
failing ioctl raises a SerialException, success returns true.  The state
parameter is never read: nothing in this branch consults `is_open_`. -/
def waitForChangeNative (st : SerialImpl) (ioctlOk : Bool) : Res Bool :=
  if ioctlOk then .ok true
  else .err (.serialException "waitForDSR failed on a call to ioctl TIOCMIWAIT")

/-- The transfer-attempt contract of the read side: every `::read`
result in the observation list is at most the byte count the attempt
asked for, namely the request minus the bytes accumulated when the
attempt runs.  Iterations whose wait did not report ready perform no
transfer and leave the count unchanged. -/
def boundedReads (size : Nat) : Nat → List ReadIter → Bool
  | _, [] => true
  | b, ev :: rest =>
    if ev.wait = WaitOutcome.ready then
      decide (ev.readResult ≤ ((size - b : Nat) : Int))
        && boundedReads size (b + ev.readResult.toNat) rest
    else boundedReads size b rest

/-- The transfer-attempt contract of the write side, symmetric to
`boundedReads`. -/
def boundedWrites (length : Nat) : Nat → List WriteIter → Bool
  | _, [] => true
  | b, ev :: rest =>
    if ev.wait = WaitOutcome.ready then
      decide (ev.writeResult ≤ ((length - b : Nat) : Int))
        && boundedWrites length (b + ev.writeResult.toNat) rest
    else boundedWrites length b rest

/-- Stop bits counted in half-bit units: 2 for one stop bit, 3 for the
1.5 case, 4 for two stop bits. -/
def halfStopBits : stopbits_t → Nat
  | .stopbits_one => 2
  | .stopbits_one_point_five => 3
  | .stopbits_two => 4

/-- Concrete timeout configuration used by the closed witnesses. -/
def demoTO : Timeout :=
  { inter_byte_timeout := Timeout.max, read_timeout_constant := 100,
    read_timeout_multiplier := 2, write_timeout_constant := 50,
    write_timeout_multiplier := 1 }

/-- Concrete open port state used by the closed witnesses. -/
def demoOpen : SerialImpl :=
  { port_ := "/dev/ttyUSB0", fd_ := 3, is_open_ := true, xonxoff_ := false,
    rtscts_ := false, baudrate_ := 9600, parity_ := .parity_none,
    bytesize_ := .eightbits, stopbits_ := .stopbits_one,
    flowcontrol_ := .flowcontrol_none, timeout_ := demoTO,
    byte_time_ns_ := byteTimeNs 9600 .eightbits .parity_none .stopbits_one }

/-- Concrete closed port state used by the closed witnesses. -/
def demoClosed : SerialImpl := { demoOpen with is_open_ := false, fd_ := -1 }

/-- Helper: away from 32-bit overflow, the byte-time estimate is the bit
time times the frame length counted in half bits, divided by two; this
single formula covers all three stop bit settings, the 1.5 setting down
to the nanosecond truncation. -/
theorem byteTimeNs_halfBits (baud : Nat) (bs : bytesize_t) (p : parity_t) (sb : stopbits_t)
    (h : bitTimeNs baud * (1 + bs.val + p.parityBits + sb.val) < U32) :
    byteTimeNs baud bs p sb
      = bitTimeNs baud * (2 * (1 + bs.val + p.parityBits) + halfStopBits sb) / 2 := by
  cases sb
  case stopbits_one =>
    simp only [byteTimeNs, halfStopBits, stopbits_t.val] at h ⊢
    rw [if_neg (by decide), Nat.mod_eq_of_lt h]
    have h2 : bitTimeNs baud * (1 + bs.val + p.parityBits + 1)
        = bitTimeNs baud * (1 + bs.val + p.parityBits) + bitTimeNs baud := by ring
    have h3 : bitTimeNs baud * (2 * (1 + bs.val + p.parityBits) + 2)
        = 2 * (bitTimeNs baud * (1 + bs.val + p.parityBits)) + 2 * bitTimeNs baud := by ring
    rw [h2, h3]
    omega
  case stopbits_two =>
    simp only [byteTimeNs, halfStopBits, stopbits_t.val] at h ⊢
    rw [if_neg (by decide), Nat.mod_eq_of_lt h]
    have h2 : bitTimeNs baud * (1 + bs.val + p.parityBits + 2)
        = bitTimeNs baud * (1 + bs.val + p.parityBits) + 2 * bitTimeNs baud := by ring
    have h3 : bitTimeNs baud * (2 * (1 + bs.val + p.parityBits) + 4)
        = 2 * (bitTimeNs baud * (1 + bs.val + p.parityBits)) + 4 * bitTimeNs baud := by ring
    rw [h2, h3]
    omega
  case stopbits_one_point_five =>
    simp only [byteTimeNs, halfStopBits, stopbits_t.val] at h ⊢
    rw [if_pos trivial, Nat.mod_eq_of_lt h]
    have h2 : bitTimeNs baud * (1 + bs.val + p.parityBits + 3)
        = bitTimeNs baud * (1 + bs.val + p.parityBits) + 3 * bitTimeNs baud := by ring
    have h3 : bitTimeNs baud * (2 * (1 + bs.val + p.parityBits) + 3)
        = 2 * (bitTimeNs baud * (1 + bs.val + p.parityBits)) + 3 * bitTimeNs baud := by ring
    rw [h2, h3]
    omega

/-- Helper: a successful `ReconfigurePort` recomputes `byte_time_ns_`
from the configuration of the state it was given. -/
theorem reconfigure_ok_byte_time (st : SerialImpl) (o : ReconfigOracle) (st2 : SerialImpl)
    (hok : ReconfigurePort st o = .ok st2) :
    st2.byte_time_ns_ = byteTimeNs st.baudrate_ st.bytesize_ st.parity_ st.stopbits_ := by
  unfold ReconfigurePort at hok
  split at hok
  · exact absurd hok (by simp)
  · split at hok
    · exact absurd hok (by simp)
    · split at hok
      · exact absurd hok (by simp)
      · injection hok with h
        subst h
        rfl

/-- Helper: the frame factor of the byte-time product is at most 13. -/
theorem frameFactor_le (bs : bytesize_t) (p : parity_t) (sb : stopbits_t) :
    1 + bs.val + p.parityBits + sb.val ≤ 13 := by
  cases bs <;> cases p <;> cases sb <;> decide

/-- Helper: the frame length in half bits is at least 14. -/
theorem halfFrame_ge (bs : bytesize_t) (p : parity_t) (sb : stopbits_t) :
    14 ≤ 2 * (1 + bs.val + p.parityBits) + halfStopBits sb := by
  cases bs <;> cases p <;> cases sb <;> decide

/-- Helper: for baud rates from 4 up, the 32-bit byte-time product does
not overflow. -/
theorem byteTime_no_overflow (baud : Nat) (bs : bytesize_t) (p : parity_t) (sb : stopbits_t)
    (h4 : 4 ≤ baud) :
    bitTimeNs baud * (1 + bs.val + p.parityBits + sb.val) < U32 := by
  have hbit : bitTimeNs baud ≤ 250000000 := by
    have := @Nat.div_le_div_left 1000000000 baud 4 h4 (by norm_num)
    simpa [bitTimeNs] using this
  have hf := frameFactor_le bs p sb
  calc bitTimeNs baud * (1 + bs.val + p.parityBits + sb.val)
      ≤ 250000000 * 13 := Nat.mul_le_mul hbit hf
    _ < U32 := by norm_num [U32]

/-- C7 fails as stated: the byte-time estimate is not strictly
decreasing in the baud rate (two distinct baud rates share the same
truncated bit time), and it is not strictly positive for every positive
baud rate (a rate above 1e9 truncates the bit time to zero). -/
theorem c7_counterexample :
    byteTimeNs 999999998 .eightbits .parity_none .stopbits_one
        = byteTimeNs 999999999 .eightbits .parity_none .stopbits_one
    ∧ byteTimeNs 2000000000 .eightbits .parity_none .stopbits_one = 0 := by
  constructor <;> decide

/-- True exactly on the success of a reconfiguration. -/
def exceptOk : Except SerialError SerialImpl → Bool
  | .ok _ => true
  | .error _ => false

/-- C7 (amended): for every valid (byte_size, stop_bits, parity)
combination and every pair of baud rates between 4 and 1e9 — the range
on which the bit time is nonzero and the 32-bit byte-time product cannot
wrap — Reconfigure succeeds whenever the OS calls it makes succeed, and
`byte_time_estimate_ns` is strictly positive and non-increasing (not
strictly decreasing: distinct baud rates can share the same truncated
bit time) in the baud rate with the configuration held fixed. -/
theorem c7_byte_time_monotone (bs : bytesize_t) (p : parity_t) (sb : stopbits_t)
    (st : SerialImpl) (o : ReconfigOracle) (b1 b2 : Nat)
    (hfd : st.fd_ ≠ -1) (hget : o.tcgetattrOk = true)
    (hbaud : standardBauds.contains st.baudrate_ = true ∨ o.customBaudOk = true)
    (h4 : 4 ≤ b1) (h12 : b1 ≤ b2) (h9 : b2 ≤ 1000000000) :
    exceptOk (ReconfigurePort st o) = true
    ∧ 0 < byteTimeNs b1 bs p sb
    ∧ byteTimeNs b2 bs p sb ≤ byteTimeNs b1 bs p sb := by
  refine ⟨?_, ?_, ?_⟩
  · unfold ReconfigurePort
    rw [if_neg hfd, if_neg (by simp [hget])]
    rw [if_neg ?_]
    · rfl
    · rintro ⟨hc1, hc2⟩
      rcases hbaud with hb | hb
      · rw [hb] at hc1; cases hc1
      · rw [hb] at hc2; cases hc2
  · rw [byteTimeNs_halfBits b1 bs p sb (byteTime_no_overflow b1 bs p sb h4)]
    have hbit : 1 ≤ bitTimeNs b1 := by
      have h0 : 0 < b1 := by omega
      have : b1 ≤ 1000000000 := le_trans h12 h9
      exact (Nat.one_le_div_iff h0).mpr this
    have hge := halfFrame_ge bs p sb
    have h14 : 14 ≤ bitTimeNs b1 * (2 * (1 + bs.val + p.parityBits) + halfStopBits sb) :=
      le_trans (by omega) (Nat.mul_le_mul hbit hge)
    omega
  · have h42 : 4 ≤ b2 := le_trans h4 h12
    rw [byteTimeNs_halfBits b1 bs p sb (byteTime_no_overflow b1 bs p sb h4),
        byteTimeNs_halfBits b2 bs p sb (byteTime_no_overflow b2 bs p sb h42)]
    have hbit : bitTimeNs b2 ≤ bitTimeNs b1 := by
      have h0 : 0 < b1 := by omega
      exact @Nat.div_le_div_left 1000000000 b2 b1 h12 h0
    exact Nat.div_le_div_right (Nat.mul_le_mul_right _ hbit)

/-- Witness for C7 (amended): the theorem applied at a concrete open
state and the concrete baud rates 9600 and 19200. -/
theorem c7_byte_time_monotone_witness :
    (demoOpen.fd_ ≠ -1 ∧ ReconfigOracle.tcgetattrOk ⟨true, true, 0⟩ = true
      ∧ (standardBauds.contains demoOpen.baudrate_ = true ∨ ReconfigOracle.customBaudOk ⟨true, true, 0⟩ = true)
      ∧ 4 ≤ 9600 ∧ 9600 ≤ 19200 ∧ 19200 ≤ 1000000000)
    ∧ (exceptOk (ReconfigurePort demoOpen ⟨true, true, 0⟩) = true
      ∧ 0 < byteTimeNs 9600 .eightbits .parity_none .stopbits_one
      ∧ byteTimeNs 19200 .eightbits .parity_none .stopbits_one
          ≤ byteTimeNs 9600 .eightbits .parity_none .stopbits_one) :=
  ⟨⟨by decide, rfl, Or.inl (by decide), by decide, by decide, by decide⟩,
   c7_byte_time_monotone .eightbits .parity_none .stopbits_one demoOpen ⟨true, true, 0⟩
     9600 19200 (by decide) rfl (Or.inl (by decide)) (by decide) (by decide) (by decide)⟩

/-- Concrete open port state at the custom baud rate 1, used by the C3
counterexample; its stored byte time is the one the 32-bit arithmetic of
the source produces. -/
def demoBaud1 : SerialImpl :=
  { demoOpen with
    baudrate_ := 1,
    byte_time_ns_ := byteTimeNs 1 .eightbits .parity_none .stopbits_one }

/-- C3 fails as stated: at the positive baud rate 1 (a custom rate the
reconfiguration accepts) with an 8N1 frame, the claimed formula gives
`(1e9 / 1) * (1 + 8 + 0 + 1) = 10000000000`, but the product of line 512
is computed in 32-bit unsigned arithmetic and wraps to 1410065408, so
after this successful Reconfigure the stored estimate is not the
formula value. -/
theorem c3_counterexample :
    ReconfigurePort demoBaud1 ⟨true, true, 0⟩ = .ok demoBaud1
    ∧ demoBaud1.byte_time_ns_ = 1410065408
    ∧ bitTimeNs demoBaud1.baudrate_
        * (1 + demoBaud1.bytesize_.val + demoBaud1.parity_.parityBits + 1) = 10000000000
    ∧ demoBaud1.byte_time_ns_
        ≠ bitTimeNs demoBaud1.baudrate_
            * (1 + demoBaud1.bytesize_.val + demoBaud1.parity_.parityBits + 1) :=
  ⟨rfl, by decide, by decide, by decide⟩

/-- C3 (amended): after every successful Reconfigure whose 32-bit
byte-time product does not overflow (any baud rate of 4 or more is in
that range), `byte_time_estimate_ns` equals
`(1e9 / baud_rate) × (1 + byte_size_bits + parity_bits + stop_bits)`
with parity_bits 0 for none and 1 otherwise and the configured stop bit
count; for the 1.5 stop bit case the corrective addend makes the product
account for 1.5 stop bits exactly, down to the truncation to whole
nanoseconds, which the uniform half-bit formula of the first conjunct
expresses. -/
theorem c3_byte_time_formula (st : SerialImpl) (o : ReconfigOracle) (st2 : SerialImpl)
    (hok : ReconfigurePort st o = .ok st2)
    (hnowrap : bitTimeNs st.baudrate_
        * (1 + st.bytesize_.val + st.parity_.parityBits + st.stopbits_.val) < U32) :
    st2.byte_time_ns_
        = bitTimeNs st.baudrate_
            * (2 * (1 + st.bytesize_.val + st.parity_.parityBits) + halfStopBits st.stopbits_) / 2
    ∧ (st.stopbits_ = .stopbits_one →
        st2.byte_time_ns_
          = bitTimeNs st.baudrate_ * (1 + st.bytesize_.val + st.parity_.parityBits + 1))
    ∧ (st.stopbits_ = .stopbits_two →
        st2.byte_time_ns_
          = bitTimeNs st.baudrate_ * (1 + st.bytesize_.val + st.parity_.parityBits + 2)) := by
  have hbt := reconfigure_ok_byte_time st o st2 hok
  refine ⟨?_, ?_, ?_⟩
  · rw [hbt]
    exact byteTimeNs_halfBits st.baudrate_ st.bytesize_ st.parity_ st.stopbits_ hnowrap
  · intro h1
    rw [hbt, h1]
    rw [h1] at hnowrap
    simp only [byteTimeNs, stopbits_t.val] at hnowrap ⊢
    rw [if_neg (by decide), Nat.mod_eq_of_lt hnowrap]
  · intro h2
    rw [hbt, h2]
    rw [h2] at hnowrap
    simp only [byteTimeNs, stopbits_t.val] at hnowrap ⊢
    rw [if_neg (by decide), Nat.mod_eq_of_lt hnowrap]

/-- Witness for C3: the theorem applied to a concrete reconfiguration at
9600 baud, 8 data bits, no parity, one stop bit. -/
theorem c3_byte_time_formula_witness :
    (ReconfigurePort demoOpen ⟨true, true, 0⟩ = .ok demoOpen
      ∧ bitTimeNs demoOpen.baudrate_
          * (1 + demoOpen.bytesize_.val + demoOpen.parity_.parityBits
              + demoOpen.stopbits_.val) < U32)
    ∧ (demoOpen.byte_time_ns_
        = bitTimeNs demoOpen.baudrate_
            * (2 * (1 + demoOpen.bytesize_.val + demoOpen.parity_.parityBits)
                + halfStopBits demoOpen.stopbits_) / 2
      ∧ (demoOpen.stopbits_ = .stopbits_one →
          demoOpen.byte_time_ns_
            = bitTimeNs demoOpen.baudrate_
                * (1 + demoOpen.bytesize_.val + demoOpen.parity_.parityBits + 1))
      ∧ (demoOpen.stopbits_ = .stopbits_two →
          demoOpen.byte_time_ns_
            = bitTimeNs demoOpen.baudrate_
                * (1 + demoOpen.bytesize_.val + demoOpen.parity_.parityBits + 2))) :=
  ⟨⟨rfl, by decide⟩,
   c3_byte_time_formula demoOpen ⟨true, true, 0⟩ demoOpen rfl (by decide)⟩

/-- C10: `ReconfigurePort` never examines the result of the `tcsetattr`
call that activates the rewritten settings: a call that succeeded under
one `tcsetattr` result succeeds identically — same resulting state —
under any other result, and the resulting state still carries the
recomputed `byte_time_ns_`; a rejection of the settings by the OS is
therefore never surfaced. -/
theorem c10_tcsetattr_unchecked (st st2 : SerialImpl) (o : ReconfigOracle) (r1 r2 : Int)
    (hok : ReconfigurePort st { o with tcsetattrResult := r1 } = .ok st2) :
    ReconfigurePort st { o with tcsetattrResult := r2 } = .ok st2
    ∧ st2.byte_time_ns_ = byteTimeNs st.baudrate_ st.bytesize_ st.parity_ st.stopbits_ := by
  constructor
  · have h : ReconfigurePort st { o with tcsetattrResult := r2 }
        = ReconfigurePort st { o with tcsetattrResult := r1 } := rfl
    rw [h]
    exact hok
  · exact reconfigure_ok_byte_time st { o with tcsetattrResult := r1 } st2 hok

/-- Witness for C10: a reconfiguration that succeeded with `tcsetattr`
returning 0 succeeds identically when `tcsetattr` reports failure. -/
theorem c10_tcsetattr_unchecked_witness :
    ReconfigurePort demoOpen { tcgetattrOk := true, customBaudOk := true, tcsetattrResult := 0 }
        = .ok demoOpen
    ∧ (ReconfigurePort demoOpen
          { tcgetattrOk := true, customBaudOk := true, tcsetattrResult := -1 } = .ok demoOpen
      ∧ demoOpen.byte_time_ns_
          = byteTimeNs demoOpen.baudrate_ demoOpen.bytesize_ demoOpen.parity_
              demoOpen.stopbits_) :=
  ⟨rfl,
   c10_tcsetattr_unchecked demoOpen demoOpen
     { tcgetattrOk := true, customBaudOk := true, tcsetattrResult := 0 } 0 (-1) rfl⟩

/-- C4 fails as stated: when the OS `close` reports an error, the
IOException is thrown before `is_open_ = false` is reached, so the port
is still marked open afterwards, contradicting the claim that the port
is marked closed in every case including the error case. -/
theorem c4_counterexample :
    (SerialClose demoOpen (-1)).1.is_open_ = true
    ∧ (SerialClose demoOpen (-1)).2 = some (.ioException "close errno") := by
  constructor <;> decide

/-- C4 (amended): Close is idempotent — a no-op on an already-closed
port; on success it releases the handle and marks the port closed; but
when the underlying OS close reports an error it fails with an I/O
condition and leaves the port still marked open, state unchanged (the
port is marked closed only on the success path). -/
theorem c4_close_amended (stc sto : SerialImpl) (ret : Int)
    (hc : stc.is_open_ = false) (ho : sto.is_open_ = true)
    (hfd : sto.fd_ ≠ -1) (hret : ret ≠ 0) :
    SerialClose stc ret = (stc, none)
    ∧ SerialClose sto 0 = ({ sto with fd_ := -1, is_open_ := false }, none)
    ∧ SerialClose sto ret = (sto, some (.ioException "close errno"))
    ∧ (SerialClose sto ret).1.is_open_ = true := by
  refine ⟨?_, ?_, ?_, ?_⟩
  · simp [SerialClose, hc]
  · simp [SerialClose, ho, hfd]
  · simp [SerialClose, ho, hfd, hret]
  · simp [SerialClose, ho, hfd, hret]

/-- Witness for C4 (amended): the theorem applied to the concrete
closed and open demo states with a failing close result. -/
theorem c4_close_amended_witness :
    (demoClosed.is_open_ = false ∧ demoOpen.is_open_ = true
      ∧ demoOpen.fd_ ≠ -1 ∧ (-1 : Int) ≠ 0)
    ∧ (SerialClose demoClosed (-1) = (demoClosed, none)
      ∧ SerialClose demoOpen 0 = ({ demoOpen with fd_ := -1, is_open_ := false }, none)
      ∧ SerialClose demoOpen (-1) = (demoOpen, some (.ioException "close errno"))
      ∧ (SerialClose demoOpen (-1)).1.is_open_ = true) :=
  ⟨⟨rfl, rfl, by decide, by decide⟩,
   c4_close_amended demoClosed demoOpen (-1) rfl rfl (by decide) (by decide)⟩

/-- Helper: a run of EINTR attempts costs one nested frame each. -/
theorem openCallDepth_replicate (n : Nat) :
    openCallDepth (List.replicate n OpenAttempt.eintr) = n := by
  induction n with
  | zero => rfl
  | succ k ih =>
    rw [List.replicate_succ]
    simp [openCallDepth, ih, Nat.add_comm]

/-- C5 fails as stated: the retry on EINTR in `Open` is the recursive
call `Open(); return;`, not an iterative loop, and the number of nested
`Open` stack frames is not bounded by any constant — for every candidate
bound a long enough run of interrupted attempts exceeds it; the first
conjunct shows a concrete run of five interruptions occupying six
frames. -/
theorem c5_counterexample :
    openCallDepth (List.replicate 5 OpenAttempt.eintr ++ [OpenAttempt.okFd 3]) = 6
    ∧ ¬ ∃ B : Nat, ∀ attempts : List OpenAttempt, openCallDepth attempts ≤ B := by
  constructor
  · decide
  · rintro ⟨B, hB⟩
    have h1 := hB (List.replicate (B + 1) OpenAttempt.eintr)
    rw [openCallDepth_replicate] at h1
    omega

/-- C5 (amended): `Open` retries interrupt-class open failures by
calling itself recursively; any run of EINTR results is absorbed
transparently — the call behaves exactly as if the interrupted attempts
had not happened — and each interruption costs one more nested stack
frame, with no explicit bound; `Open` proceeds as soon as an attempt is
not interrupted. -/
theorem c5_open_recursive (st : SerialImpl) (ro : ReconfigOracle) (n : Nat)
    (tail : List OpenAttempt) (hport : st.port_ ≠ "") (hcl : st.is_open_ = false) :
    SerialOpen st ro (List.replicate n OpenAttempt.eintr ++ tail) = SerialOpen st ro tail
    ∧ openCallDepth (List.replicate n OpenAttempt.eintr ++ tail)
        = n + openCallDepth tail := by
  constructor
  · have key : ∀ m : Nat,
        openAttemptsLoop st ro (List.replicate m OpenAttempt.eintr ++ tail)
          = openAttemptsLoop st ro tail := by
      intro m
      induction m with
      | zero => rfl
      | succ k ih =>
        rw [List.replicate_succ, List.cons_append]
        simpa [openAttemptsLoop] using ih
    simp [SerialOpen, hport, hcl, key n]
  · induction n with
    | zero => simp
    | succ k ih =>
      rw [List.replicate_succ, List.cons_append]
      simp [openCallDepth, ih]
      omega

/-- Witness for C5 (amended): three interrupted attempts followed by a
successful open behave as the successful open alone, at depth 4. -/
theorem c5_open_recursive_witness :
    (demoClosed.port_ ≠ "" ∧ demoClosed.is_open_ = false)
    ∧ (SerialOpen demoClosed ⟨true, true, 0⟩
          (List.replicate 3 OpenAttempt.eintr ++ [OpenAttempt.okFd 3])
        = SerialOpen demoClosed ⟨true, true, 0⟩ [OpenAttempt.okFd 3]
      ∧ openCallDepth (List.replicate 3 OpenAttempt.eintr ++ [OpenAttempt.okFd 3])
          = 3 + openCallDepth [OpenAttempt.okFd 3]) :=
  ⟨⟨by decide, rfl⟩,
   c5_open_recursive demoClosed ⟨true, true, 0⟩ 3 [OpenAttempt.okFd 3] (by decide) rfl⟩

/-- Helper: passes in which the port reads open, the status ioctl works
and no monitored bit is set keep the polling loop running. -/
theorem waitForChangePolling_quiet (pre : List PollIter) (l : List PollIter)
    (hpre : pre.all quietOpenPoll = true) :
    waitForChangePolling (pre ++ l) = waitForChangePolling l := by
  induction pre with
  | nil => rfl
  | cons x xs ih =>
    rw [List.all_cons, Bool.and_eq_true] at hpre
    obtain ⟨hx, hxs⟩ := hpre
    unfold quietOpenPoll at hx
    rw [Bool.and_eq_true] at hx
    obtain ⟨hopen, hq⟩ := hx
    cases hs : x.status with
    | none => rw [hs] at hq; simp at hq
    | some s =>
      rw [hs] at hq
      simp only [Bool.not_eq_true'] at hq
      rw [List.cons_append]
      rw [waitForChangePolling.eq_def]
      simp only [hopen, hs, hq]
      simpa using ih hxs

/-- C6 fails as stated: on the Linux host TIOCMIWAIT is defined, so
`WaitForChange` compiles to the native branch, which never consults the
open flag; on a closed port the descriptor is invalid, the ioctl fails
and a SerialException is raised — the call never returns false there
(the native branch has no false result at all). -/
theorem c6_counterexample :
    demoClosed.is_open_ = false
    ∧ waitForChangeNative demoClosed false
        = .err (.serialException "waitForDSR failed on a call to ioctl TIOCMIWAIT")
    ∧ waitForChangeNative demoClosed false ≠ .ok false
    ∧ waitForChangeNative demoClosed true ≠ .ok false := by
  refine ⟨rfl, rfl, by decide, by decide⟩

/-- C6 (amended): in the polling fallback (hosts without TIOCMIWAIT),
`WaitForChange` on a closed port returns false immediately, and the loop
keeps polling only while the port reads open, returning false as soon as
a pass finds the port closed — even after any number of uneventful open
passes; in the native TIOCMIWAIT branch the open flag is never checked
and the call never returns false: it either reports a change or raises
the ioctl failure. -/
theorem c6_wait_for_change (pre : List PollIter) (it : PollIter) (rest : List PollIter)
    (st : SerialImpl) (okNative : Bool)
    (hpre : pre.all quietOpenPoll = true) (hclosed : it.isOpenNow = false) :
    waitForChangePolling (it :: rest) = .ok false
    ∧ waitForChangePolling (pre ++ it :: rest) = .ok false
    ∧ waitForChangeNative st okNative ≠ .ok false := by
  have h1 : waitForChangePolling (it :: rest) = .ok false := by
    rw [waitForChangePolling.eq_def]
    simp [hclosed]
  refine ⟨h1, ?_, ?_⟩
  · rw [waitForChangePolling_quiet pre (it :: rest) hpre]
    exact h1
  · unfold waitForChangeNative
    cases okNative <;> simp

/-- Witness for C6 (amended): one uneventful open pass followed by a
pass that reads the port closed returns false. -/
theorem c6_wait_for_change_witness :
    (List.all [PollIter.mk true (some 0)] quietOpenPoll = true
      ∧ PollIter.isOpenNow (PollIter.mk false (some 0)) = false)
    ∧ (waitForChangePolling [PollIter.mk false (some 0)] = .ok false
      ∧ waitForChangePolling
          ([PollIter.mk true (some 0)] ++ [PollIter.mk false (some 0)]) = .ok false
      ∧ waitForChangeNative demoOpen true ≠ .ok false) :=
  ⟨⟨by decide, rfl⟩,
   c6_wait_for_change [PollIter.mk true (some 0)] (PollIter.mk false (some 0)) []
     demoOpen true (by decide) rfl⟩

/-- Helper: whatever the transfer outcome, the actions of a transfer
attempt are the preceding actions followed by the one `::read`. -/
theorem readTransfer_trace (size b : Nat) (res : Int) (pre : List Action) :
    (readTransfer size b res pre).trace = pre ++ [Action.transferRead res] := by
  simp only [readTransfer]
  split_ifs <;> rfl

/-- Helper: whatever the transfer outcome, the actions of a write
transfer attempt are the preceding actions followed by the one
`::write`. -/
theorem writeTransfer_trace (length b : Nat) (res : Int) (pre : List Action) :
    (writeTransfer length b res pre).trace = pre ++ [Action.transferWrite res] := by
  simp only [writeTransfer]
  split_ifs <;> rfl

/-- Helper: under the bounded-transfer contract, a read transfer attempt
either raises the disconnect fault (result below 1), or accumulates and
breaks exactly at the requested size, or accumulates and stays short;
the over-read branch is unreachable. -/
theorem readTransfer_result (size b : Nat) (res : Int) (pre : List Action)
    (hb : b ≤ size) (hres : res ≤ ((size - b : Nat) : Int)) :
    (res < 1 ∧ readTransfer size b res pre
        = .fail (.serialException readDisconnectMsg) (pre ++ [Action.transferRead res]))
    ∨ (1 ≤ res ∧ b + res.toNat = size ∧ readTransfer size b res pre
        = .brk (b + res.toNat) (pre ++ [Action.transferRead res]))
    ∨ (1 ≤ res ∧ b + res.toNat < size ∧ readTransfer size b res pre
        = .cont (b + res.toNat) (pre ++ [Action.transferRead res])) := by
  by_cases h1 : res < 1
  · exact Or.inl ⟨h1, by simp only [readTransfer]; rw [if_pos h1]⟩
  · have hle : b + res.toNat ≤ size := by
      have := Int.toNat_le.mpr hres
      omega
    by_cases h2 : b + res.toNat = size
    · refine Or.inr (Or.inl ⟨by omega, h2, ?_⟩)
      simp only [readTransfer]
      rw [if_neg h1, if_pos h2]
    · refine Or.inr (Or.inr ⟨by omega, by omega, ?_⟩)
      simp only [readTransfer]
      rw [if_neg h1, if_neg h2, if_pos (by omega)]

/-- Helper: the write-side transfer attempt, symmetric to
`readTransfer_result`. -/
theorem writeTransfer_result (length b : Nat) (res : Int) (pre : List Action)
    (hb : b ≤ length) (hres : res ≤ ((length - b : Nat) : Int)) :
    (res < 1 ∧ writeTransfer length b res pre
        = .fail (.serialException writeDisconnectMsg) (pre ++ [Action.transferWrite res]))
    ∨ (1 ≤ res ∧ b + res.toNat = length ∧ writeTransfer length b res pre
        = .brk (b + res.toNat) (pre ++ [Action.transferWrite res]))
    ∨ (1 ≤ res ∧ b + res.toNat < length ∧ writeTransfer length b res pre
        = .cont (b + res.toNat) (pre ++ [Action.transferWrite res])) := by
  by_cases h1 : res < 1
  · exact Or.inl ⟨h1, by simp only [writeTransfer]; rw [if_pos h1]⟩
  · have hle : b + res.toNat ≤ length := by
      have := Int.toNat_le.mpr hres
      omega
    by_cases h2 : b + res.toNat = length
    · refine Or.inr (Or.inl ⟨by omega, h2, ?_⟩)
      simp only [writeTransfer]
      rw [if_neg h1, if_pos h2]
    · refine Or.inr (Or.inr ⟨by omega, by omega, ?_⟩)
      simp only [writeTransfer]
      rw [if_neg h1, if_neg h2, if_pos (by omega)]

/-- Helper: a ready read iteration inside the deadline either fails on
the byte-count ioctl of the coalescing step or ends in the transfer
attempt. -/
theorem readIterStep_ready_shape (t : Timeout) (bt total size b : Nat) (ev : ReadIter)
    (hdl : ¬ total ≤ ev.elapsed_ms) (hww : ev.wait = .ready) :
    (∃ tr, readIterStep t bt total size b ev = .fail (.ioException "ioctl TIOCINQ errno") tr)
    ∨ (∃ pre, readIterStep t bt total size b ev = readTransfer size b ev.readResult pre) := by
  unfold readIterStep
  rw [if_neg hdl]
  simp only [hww]
  by_cases hc : size > 1 ∧ t.inter_byte_timeout = Timeout.max
  · rw [if_pos hc]
    cases hav : ev.avail with
    | none => exact Or.inl ⟨_, rfl⟩
    | some avail =>
      dsimp only
      by_cases h2 : avail + b < size
      · rw [if_pos h2]
        exact Or.inr ⟨_, rfl⟩
      · rw [if_neg h2]
        exact Or.inr ⟨_, rfl⟩
  · rw [if_neg hc]
    exact Or.inr ⟨_, rfl⟩

/-- Helper: a write iteration inside the deadline, by select outcome:
retry, break, transfer, or the two I/O errors. -/
theorem writeIterStep_shape (total length b : Nat) (ev : WriteIter)
    (hdl : ¬ total ≤ ev.elapsed_ms) :
    (ev.wait = .interrupted ∧ writeIterStep total length b ev
        = .cont b [Action.waitWritable (total - ev.elapsed_ms)])
    ∨ (ev.wait = .timedOut ∧ writeIterStep total length b ev
        = .brk b [Action.waitWritable (total - ev.elapsed_ms)])
    ∨ (ev.wait = .selectError ∧ writeIterStep total length b ev
        = .fail (.ioException "pselect errno") [Action.waitWritable (total - ev.elapsed_ms)])
    ∨ (ev.wait = .fdNotSet ∧ writeIterStep total length b ev
        = .fail (.ioException "select reports ready to write, but our fd is not in the list")
            [Action.waitWritable (total - ev.elapsed_ms)])
    ∨ (ev.wait = .ready ∧ writeIterStep total length b ev
        = writeTransfer length b ev.writeResult
            [Action.waitWritable (total - ev.elapsed_ms)]) := by
  unfold writeIterStep
  rw [if_neg hdl]
  cases hww : ev.wait
  case ready => exact Or.inr (Or.inr (Or.inr (Or.inr ⟨rfl, rfl⟩)))
  case timedOut => exact Or.inr (Or.inl ⟨rfl, rfl⟩)
  case interrupted => exact Or.inl ⟨rfl, rfl⟩
  case selectError => exact Or.inr (Or.inr (Or.inl ⟨rfl, rfl⟩))
  case fdNotSet => exact Or.inr (Or.inr (Or.inr (Or.inl ⟨rfl, rfl⟩)))

/-- Helper: a failed read transfer attempt (result below 1) raises the
disconnect fault. -/
theorem readTransfer_fail (size b : Nat) (res : Int) (pre : List Action) (h : res < 1) :
    readTransfer size b res pre
      = .fail (.serialException readDisconnectMsg) (pre ++ [Action.transferRead res]) := by
  simp only [readTransfer]
  rw [if_pos h]

/-- Helper: a failed write transfer attempt (result below 1) raises the
disconnect fault. -/
theorem writeTransfer_fail (length b : Nat) (res : Int) (pre : List Action) (h : res < 1) :
    writeTransfer length b res pre
      = .fail (.serialException writeDisconnectMsg) (pre ++ [Action.transferWrite res]) := by
  simp only [writeTransfer]
  rw [if_pos h]

/-- Helper: a ready read iteration inside the deadline whose byte-count
query succeeded ends in the transfer attempt; the byte-time sleep is
inserted before it exactly when the request exceeds one byte, the
inter-byte timeout sits at the maximum sentinel and the known bytes are
still short of the request. -/
theorem readIterStep_ready_some (t : Timeout) (bt total size b : Nat) (ev : ReadIter)
    (avail : Nat) (hdl : ¬ total ≤ ev.elapsed_ms) (hw : ev.wait = .ready)
    (hav : ev.avail = some avail) :
    ((size > 1 ∧ t.inter_byte_timeout = Timeout.max ∧ avail + b < size)
      ∧ readIterStep t bt total size b ev
          = readTransfer size b ev.readResult
              [Action.waitReadable (min ((total - ev.elapsed_ms) % U32) t.inter_byte_timeout),
               Action.byteSleep (bt * (size - (avail + b)))])
    ∨ (¬(size > 1 ∧ t.inter_byte_timeout = Timeout.max ∧ avail + b < size)
      ∧ readIterStep t bt total size b ev
          = readTransfer size b ev.readResult
              [Action.waitReadable
                (min ((total - ev.elapsed_ms) % U32) t.inter_byte_timeout)]) := by
  unfold readIterStep
  rw [if_neg hdl]
  simp only [hw, hav]
  by_cases hc : size > 1 ∧ t.inter_byte_timeout = Timeout.max
  · rw [if_pos hc]
    by_cases h2 : avail + b < size
    · rw [if_pos h2]
      exact Or.inl ⟨⟨hc.1, hc.2, h2⟩, rfl⟩
    · rw [if_neg h2]
      exact Or.inr ⟨by tauto, rfl⟩
  · rw [if_neg hc]
    exact Or.inr ⟨by tauto, rfl⟩

/-- Helper: a ready read iteration inside the deadline whose byte-count
query failed either raises the ioctl error (when the coalescing step
runs) or skips straight to the transfer attempt. -/
theorem readIterStep_availNone_trace (t : Timeout) (bt total size b : Nat) (ev : ReadIter)
    (hdl : ¬ total ≤ ev.elapsed_ms) (hw : ev.wait = .ready) (hav : ev.avail = none) :
    (readIterStep t bt total size b ev).trace
        = [Action.waitReadable (min ((total - ev.elapsed_ms) % U32) t.inter_byte_timeout)]
    ∨ (readIterStep t bt total size b ev).trace
        = [Action.waitReadable (min ((total - ev.elapsed_ms) % U32) t.inter_byte_timeout),
           Action.transferRead ev.readResult] := by
  unfold readIterStep
  rw [if_neg hdl]
  simp only [hw, hav]
  by_cases hc : size > 1 ∧ t.inter_byte_timeout = Timeout.max
  · rw [if_pos hc]
    exact Or.inl rfl
  · rw [if_neg hc]
    rw [readTransfer_trace]
    exact Or.inr rfl

/-- Helper: an iteration whose wait did not report ready performs at
most the readiness wait. -/
theorem readIterStep_notReady_trace (t : Timeout) (bt total size b : Nat) (ev : ReadIter)
    (hw : ev.wait ≠ .ready) :
    (readIterStep t bt total size b ev).trace = []
    ∨ (readIterStep t bt total size b ev).trace
        = [Action.waitReadable
            (min ((total - ev.elapsed_ms) % U32) t.inter_byte_timeout)] := by
  unfold readIterStep
  split
  · exact Or.inl rfl
  · cases hww : ev.wait
    case ready => exact absurd hww hw
    all_goals exact Or.inr rfl

/-- Helper: every readiness wait a read iteration performs inside the
deadline runs for the lesser of the remaining total time (after the
32-bit cast, which can only shorten it) and the inter-byte timeout, so
it is bounded by both. -/
theorem readIterStep_wait_bound (t : Timeout) (bt total size b : Nat) (ev : ReadIter)
    (ms : Nat) (he : ev.elapsed_ms < total)
    (hmem : Action.waitReadable ms ∈ (readIterStep t bt total size b ev).trace) :
    ms ≤ total - ev.elapsed_ms ∧ ms ≤ t.inter_byte_timeout := by
  have hdl : ¬ total ≤ ev.elapsed_ms := by omega
  have hkey : ms = min ((total - ev.elapsed_ms) % U32) t.inter_byte_timeout := by
    by_cases hw : ev.wait = .ready
    · cases hav : ev.avail with
      | none =>
        rcases readIterStep_availNone_trace t bt total size b ev hdl hw hav with h | h
        · rw [h] at hmem
          simpa using hmem
        · rw [h] at hmem
          simpa using hmem
      | some avail =>
        rcases readIterStep_ready_some t bt total size b ev avail hdl hw hav with
          ⟨-, heq⟩ | ⟨-, heq⟩
        · rw [heq, readTransfer_trace] at hmem
          simpa using hmem
        · rw [heq, readTransfer_trace] at hmem
          simpa using hmem
    · rcases readIterStep_notReady_trace t bt total size b ev hw with h | h
      · rw [h] at hmem
        simp at hmem
      · rw [h] at hmem
        simpa using hmem
  constructor
  · calc ms ≤ (total - ev.elapsed_ms) % U32 := by rw [hkey]; exact min_le_left _ _
      _ ≤ total - ev.elapsed_ms := Nat.mod_le _ _
  · rw [hkey]
    exact min_le_right _ _

/-- Helper: once the deadline is spent, the next loop head stops
immediately and yields the accumulated count as a success. -/
theorem readLoop_deadline (t : Timeout) (bt total size b : Nat) (ev : ReadIter)
    (rest : List ReadIter) (hb : b < size) (he : total ≤ ev.elapsed_ms) :
    readLoop t bt total size b (ev :: rest) = (.ok b, []) := by
  have hstep : readIterStep t bt total size b ev = .brk b [] := by
    unfold readIterStep
    rw [if_pos he]
  simp only [readLoop, if_pos hb, hstep]

/-- Helper: an iteration that fails aborts the loop with that error. -/
theorem readLoop_fail (t : Timeout) (bt total size b : Nat) (ev : ReadIter)
    (rest : List ReadIter) (e : SerialError) (tr : List Action) (hb : b < size)
    (hstep : readIterStep t bt total size b ev = .fail e tr) :
    readLoop t bt total size b (ev :: rest) = (.err e, tr) := by
  simp only [readLoop, if_pos hb, hstep]

/-- Helper: an iteration that breaks ends the loop successfully with its
count. -/
theorem readLoop_brk (t : Timeout) (bt total size b : Nat) (ev : ReadIter)
    (rest : List ReadIter) (b2 : Nat) (tr : List Action) (hb : b < size)
    (hstep : readIterStep t bt total size b ev = .brk b2 tr) :
    readLoop t bt total size b (ev :: rest) = (.ok b2, tr) := by
  simp only [readLoop, if_pos hb, hstep]

/-- Helper: an iteration that continues hands its count to the rest of
the loop. -/
theorem readLoop_cont (t : Timeout) (bt total size b : Nat) (ev : ReadIter)
    (rest : List ReadIter) (b2 : Nat) (tr : List Action) (hb : b < size)
    (hstep : readIterStep t bt total size b ev = .cont b2 tr) :
    readLoop t bt total size b (ev :: rest)
      = ((readLoop t bt total size b2 rest).1,
          tr ++ (readLoop t bt total size b2 rest).2) := by
  simp only [readLoop, if_pos hb, hstep]

/-- Helper: the write-side analogues of the three loop-step lemmas. -/
theorem writeLoop_fail (total length b : Nat) (ev : WriteIter) (rest : List WriteIter)
    (e : SerialError) (tr : List Action) (hb : b < length)
    (hstep : writeIterStep total length b ev = .fail e tr) :
    writeLoop total length b (ev :: rest) = (.err e, tr) := by
  simp only [writeLoop, if_pos hb, hstep]

/-- Helper: a breaking write iteration ends the loop with its count. -/
theorem writeLoop_brk (total length b : Nat) (ev : WriteIter) (rest : List WriteIter)
    (b2 : Nat) (tr : List Action) (hb : b < length)
    (hstep : writeIterStep total length b ev = .brk b2 tr) :
    writeLoop total length b (ev :: rest) = (.ok b2, tr) := by
  simp only [writeLoop, if_pos hb, hstep]

/-- Helper: a continuing write iteration hands its count onward. -/
theorem writeLoop_cont (total length b : Nat) (ev : WriteIter) (rest : List WriteIter)
    (b2 : Nat) (tr : List Action) (hb : b < length)
    (hstep : writeIterStep total length b ev = .cont b2 tr) :
    writeLoop total length b (ev :: rest)
      = ((writeLoop total length b2 rest).1, tr ++ (writeLoop total length b2 rest).2) := by
  simp only [writeLoop, if_pos hb, hstep]

/-- Helper: a non-ready read iteration inside the deadline continues
with the count unchanged or fails on the select call. -/
theorem readIterStep_notReady_shape (t : Timeout) (bt total size b : Nat) (ev : ReadIter)
    (hdl : ¬ total ≤ ev.elapsed_ms) (hw : ev.wait ≠ .ready) :
    (∃ tr, readIterStep t bt total size b ev = .cont b tr)
    ∨ (∃ tr, readIterStep t bt total size b ev = .fail (.ioException "pselect errno") tr)
    ∨ (∃ tr, readIterStep t bt total size b ev
        = .fail (.ioException "select reports ready to read, but our fd is not in the list")
            tr) := by
  unfold readIterStep
  rw [if_neg hdl]
  cases hww : ev.wait
  case ready => exact absurd hww hw
  case timedOut => exact Or.inl ⟨_, rfl⟩
  case interrupted => exact Or.inl ⟨_, rfl⟩
  case selectError => exact Or.inr (Or.inl ⟨_, rfl⟩)
  case fdNotSet => exact Or.inr (Or.inr ⟨_, rfl⟩)

/-- Helper: under the bounded-transfer contract the read loop never
yields a count above the request and never reaches the over-read
invariant violation. -/
theorem readLoop_bounded (t : Timeout) (bt total size : Nat) :
    ∀ (evs : List ReadIter) (b : Nat), b ≤ size → boundedReads size b evs = true →
      (∀ n, (readLoop t bt total size b evs).1 = Res.ok n → n ≤ size)
      ∧ (readLoop t bt total size b evs).1 ≠ Res.err (.serialException overReadMsg) := by
  intro evs
  induction evs with
  | nil =>
    intro b hb _
    constructor
    · intro n hn
      rw [readLoop] at hn
      split at hn
      · exact absurd hn (by simp)
      · simp at hn
        omega
    · rw [readLoop]
      split
      · simp
      · simp
  | cons ev rest ih =>
    intro b hb hbr
    by_cases hlt : b < size
    case neg =>
      have hloop : readLoop t bt total size b (ev :: rest) = (.ok b, []) := by
        rw [readLoop, if_neg hlt]
      rw [hloop]
      refine ⟨?_, by simp⟩
      intro n hn
      simp at hn
      omega
    case pos =>
      by_cases hdl : total ≤ ev.elapsed_ms
      · rw [readLoop_deadline t bt total size b ev rest hlt hdl]
        refine ⟨?_, by simp⟩
        intro n hn
        simp at hn
        omega
      · by_cases hww : ev.wait = WaitOutcome.ready
        · have hbr2 : ev.readResult ≤ ((size - b : Nat) : Int)
              ∧ boundedReads size (b + ev.readResult.toNat) rest = true := by
            rw [boundedReads, if_pos hww, Bool.and_eq_true] at hbr
            exact ⟨of_decide_eq_true hbr.1, hbr.2⟩
          rcases readIterStep_ready_shape t bt total size b ev hdl hww with
            ⟨tr, htr⟩ | ⟨pre, hpre⟩
          · rw [readLoop_fail t bt total size b ev rest _ _ hlt htr]
            exact ⟨by intro n hn; simp at hn, by simp⟩
          · rcases readTransfer_result size b ev.readResult pre hb hbr2.1 with
              ⟨h1, heq⟩ | ⟨h1, h2, heq⟩ | ⟨h1, h2, heq⟩
            · rw [readLoop_fail t bt total size b ev rest _ _ hlt (hpre.trans heq)]
              refine ⟨by intro n hn; simp at hn, ?_⟩
              simp only [ne_eq, Res.err.injEq, SerialError.serialException.injEq]
              decide
            · rw [readLoop_brk t bt total size b ev rest _ _ hlt (hpre.trans heq)]
              refine ⟨?_, by simp⟩
              intro n hn
              simp at hn
              omega
            · rw [readLoop_cont t bt total size b ev rest _ _ hlt (hpre.trans heq)]
              exact ih (b + ev.readResult.toNat) (by omega) hbr2.2
        · have hbr2 : boundedReads size b rest = true := by
            rw [boundedReads, if_neg hww] at hbr
            exact hbr
          rcases readIterStep_notReady_shape t bt total size b ev hdl hww with
            ⟨tr, htr⟩ | ⟨tr, htr⟩ | ⟨tr, htr⟩
          · rw [readLoop_cont t bt total size b ev rest _ _ hlt htr]
            exact ih b hb hbr2
          · rw [readLoop_fail t bt total size b ev rest _ _ hlt htr]
            exact ⟨by intro n hn; simp at hn, by simp⟩
          · rw [readLoop_fail t bt total size b ev rest _ _ hlt htr]
            exact ⟨by intro n hn; simp at hn, by simp⟩

/-- Helper: under the bounded-transfer contract the write loop never
yields a count above the request and never reaches the over-write
invariant violation. -/
theorem writeLoop_bounded (total length : Nat) :
    ∀ (evs : List WriteIter) (b : Nat), b ≤ length → boundedWrites length b evs = true →
      (∀ n, (writeLoop total length b evs).1 = Res.ok n → n ≤ length)
      ∧ (writeLoop total length b evs).1 ≠ Res.err (.serialException overWriteMsg) := by
  intro evs
  induction evs with
  | nil =>
    intro b hb _
    constructor
    · intro n hn
      rw [writeLoop] at hn
      split at hn
      · exact absurd hn (by simp)
      · simp at hn
        omega
    · rw [writeLoop]
      split
      · simp
      · simp
  | cons ev rest ih =>
    intro b hb hbr
    by_cases hlt : b < length
    case neg =>
      have hloop : writeLoop total length b (ev :: rest) = (.ok b, []) := by
        rw [writeLoop, if_neg hlt]
      rw [hloop]
      refine ⟨?_, by simp⟩
      intro n hn
      simp at hn
      omega
    case pos =>
      by_cases hdl : total ≤ ev.elapsed_ms
      · have hstep : writeIterStep total length b ev = .brk b [] := by
          unfold writeIterStep
          rw [if_pos hdl]
        rw [writeLoop_brk total length b ev rest _ _ hlt hstep]
        refine ⟨?_, by simp⟩
        intro n hn
        simp at hn
        omega
      · rcases writeIterStep_shape total length b ev hdl with
          ⟨hww, hstep⟩ | ⟨hww, hstep⟩ | ⟨hww, hstep⟩ | ⟨hww, hstep⟩ | ⟨hww, hstep⟩
        · have hbr2 : boundedWrites length b rest = true := by
            rw [boundedWrites, if_neg (by rw [hww]; intro h; cases h)] at hbr
            exact hbr
          rw [writeLoop_cont total length b ev rest _ _ hlt hstep]
          exact ih b hb hbr2
        · rw [writeLoop_brk total length b ev rest _ _ hlt hstep]
          refine ⟨?_, by simp⟩
          intro n hn
          simp at hn
          omega
        · rw [writeLoop_fail total length b ev rest _ _ hlt hstep]
          exact ⟨by intro n hn; simp at hn, by simp⟩
        · rw [writeLoop_fail total length b ev rest _ _ hlt hstep]
          exact ⟨by intro n hn; simp at hn, by simp⟩
        · have hbr2 : ev.writeResult ≤ ((length - b : Nat) : Int)
              ∧ boundedWrites length (b + ev.writeResult.toNat) rest = true := by
            rw [boundedWrites, if_pos hww, Bool.and_eq_true] at hbr
            exact ⟨of_decide_eq_true hbr.1, hbr.2⟩
          rcases writeTransfer_result length b ev.writeResult
              [Action.waitWritable (total - ev.elapsed_ms)] hb hbr2.1 with
            ⟨h1, heq⟩ | ⟨h1, h2, heq⟩ | ⟨h1, h2, heq⟩
          · rw [writeLoop_fail total length b ev rest _ _ hlt (hstep.trans heq)]
            refine ⟨by intro n hn; simp at hn, ?_⟩
            simp only [ne_eq, Res.err.injEq, SerialError.serialException.injEq]
            decide
          · rw [writeLoop_brk total length b ev rest _ _ hlt (hstep.trans heq)]
            refine ⟨?_, by simp⟩
            intro n hn
            simp at hn
            omega
          · rw [writeLoop_cont total length b ev rest _ _ hlt (hstep.trans heq)]
            exact ih (b + ev.writeResult.toNat) (by omega) hbr2.2

/-- Helper: a ready iteration inside the deadline with a successful
byte-count query whose transfer attempt yields less than one byte raises
the disconnect SerialException. -/
theorem readIterStep_disconnect (t : Timeout) (bt total size b : Nat) (ev : ReadIter)
    (avail : Nat) (hdl : ¬ total ≤ ev.elapsed_ms) (hw : ev.wait = .ready)
    (hav : ev.avail = some avail) (hres : ev.readResult < 1) :
    ∃ tr, readIterStep t bt total size b ev
        = .fail (.serialException readDisconnectMsg) tr := by
  rcases readIterStep_ready_some t bt total size b ev avail hdl hw hav with
    ⟨-, heq⟩ | ⟨-, heq⟩ <;>
    exact ⟨_, heq.trans (readTransfer_fail size b ev.readResult _ hres)⟩

/-- Helper: the write-side disconnect, symmetric. -/
theorem writeIterStep_disconnect (total length b : Nat) (ev : WriteIter)
    (hdl : ¬ total ≤ ev.elapsed_ms) (hw : ev.wait = .ready) (hres : ev.writeResult < 1) :
    ∃ tr, writeIterStep total length b ev
        = .fail (.serialException writeDisconnectMsg) tr := by
  rcases writeIterStep_shape total length b ev hdl with
    ⟨hww, hstep⟩ | ⟨hww, hstep⟩ | ⟨hww, hstep⟩ | ⟨hww, hstep⟩ | ⟨hww, hstep⟩
  · rw [hw] at hww; cases hww
  · rw [hw] at hww; cases hww
  · rw [hw] at hww; cases hww
  · rw [hw] at hww; cases hww
  · exact ⟨_, hstep.trans (writeTransfer_fail length b ev.writeResult _ hres)⟩

/-- C2: on both sides, a transfer attempt that yields zero or negative
bytes right after the readiness wait reported the device ready raises
the fatal disconnect SerialException — not a retryable condition: the
loop aborts with that error — and the call leaves the port state,
including `is_open_`, unchanged (Read and Write return the state they
were given, whatever happens). -/
theorem c2_disconnect_fault (st : SerialImpl) (size length total b bw : Nat)
    (prefill : Int) (evs : List ReadIter) (wevs : List WriteIter)
    (ev : ReadIter) (wev : WriteIter) (rest : List ReadIter) (wrest : List WriteIter)
    (avail : Nat)
    (hb : b < size) (he : ev.elapsed_ms < total) (hw : ev.wait = .ready)
    (hav : ev.avail = some avail) (hres : ev.readResult < 1)
    (hbw : bw < length) (hwe : wev.elapsed_ms < total) (hww : wev.wait = .ready)
    (hwres : wev.writeResult < 1) :
    (readIterStep st.timeout_ st.byte_time_ns_ total size b ev).error?
        = some (.serialException readDisconnectMsg)
    ∧ (readLoop st.timeout_ st.byte_time_ns_ total size b (ev :: rest)).1
        = .err (.serialException readDisconnectMsg)
    ∧ (writeIterStep total length bw wev).error?
        = some (.serialException writeDisconnectMsg)
    ∧ (writeLoop total length bw (wev :: wrest)).1
        = .err (.serialException writeDisconnectMsg)
    ∧ (SerialRead st size prefill evs).1 = st
    ∧ (SerialWrite st length wevs).1 = st := by
  obtain ⟨tr, htr⟩ := readIterStep_disconnect st.timeout_ st.byte_time_ns_ total size b ev
    avail (by omega) hw hav hres
  obtain ⟨wtr, hwtr⟩ := writeIterStep_disconnect total length bw wev (by omega) hww hwres
  refine ⟨?_, ?_, ?_, ?_, ?_, ?_⟩
  · rw [htr]
    rfl
  · rw [readLoop_fail st.timeout_ st.byte_time_ns_ total size b ev rest _ _ hb htr]
  · rw [hwtr]
    rfl
  · rw [writeLoop_fail total length bw wev wrest _ _ hbw hwtr]
  · unfold SerialRead
    split <;> rfl
  · unfold SerialWrite
    split <;> rfl

/-- Witness for C2: a ready iteration at 5 ms into a 100 ms deadline
whose transfer returns 0 bytes, on both sides. -/
theorem c2_disconnect_fault_witness :
    ((1 : Nat) < 4 ∧ (5 : Nat) < 100
      ∧ ReadIter.wait ⟨5, .ready, some 0, 0⟩ = .ready
      ∧ ReadIter.avail ⟨5, .ready, some 0, 0⟩ = some 0
      ∧ ReadIter.readResult ⟨5, .ready, some 0, 0⟩ < 1
      ∧ (0 : Nat) < 3 ∧ WriteIter.wait ⟨5, .ready, 0⟩ = .ready
      ∧ WriteIter.writeResult ⟨5, .ready, 0⟩ < 1)
    ∧ ((readIterStep demoOpen.timeout_ demoOpen.byte_time_ns_ 100 4 1 ⟨5, .ready, some 0, 0⟩).error?
        = some (.serialException readDisconnectMsg)
      ∧ (readLoop demoOpen.timeout_ demoOpen.byte_time_ns_ 100 4 1 [⟨5, .ready, some 0, 0⟩]).1
        = .err (.serialException readDisconnectMsg)
      ∧ (writeIterStep 100 3 0 ⟨5, .ready, 0⟩).error?
        = some (.serialException writeDisconnectMsg)
      ∧ (writeLoop 100 3 0 [⟨5, .ready, 0⟩]).1
        = .err (.serialException writeDisconnectMsg)
      ∧ (SerialRead demoOpen 4 0 []).1 = demoOpen
      ∧ (SerialWrite demoOpen 3 []).1 = demoOpen) :=
  ⟨⟨by decide, by decide, rfl, rfl, by decide, by decide, rfl, by decide⟩,
   c2_disconnect_fault demoOpen 4 3 100 1 0 0 [] [] ⟨5, .ready, some 0, 0⟩ ⟨5, .ready, 0⟩
     [] [] 0 (by decide) (by decide) rfl rfl (by decide) (by decide) (by decide) rfl
     (by decide)⟩

/-- C1: the Read contract: an open call runs the loop against the
deadline `read_timeout_constant + read_timeout_multiplier * size`
milliseconds; the one opportunistic transfer is the first action of the
trace, before any readiness wait; every readiness wait inside the
deadline is bounded both by the remaining total time and by the
inter-byte timeout; a loop head that finds the deadline spent stops at
once and yields the bytes accumulated so far as an ordinary result, not
an error; and a call on a closed port fails immediately with the
not-open condition, performing no action at all. -/
theorem c1_read_contract (st : SerialImpl) (size : Nat) (prefill : Int)
    (evs : List ReadIter) (total b : Nat) (ev1 ev2 : ReadIter)
    (rest : List ReadIter) (ms : Nat) (st2 : SerialImpl)
    (hopen : st.is_open_ = true) (hb : b < size) :
    (SerialRead st size prefill evs).2.1
        = (readLoop st.timeout_ st.byte_time_ns_
            (st.timeout_.read_timeout_constant + st.timeout_.read_timeout_multiplier * size)
            size (if 0 < prefill then prefill.toNat else 0) evs).1
    ∧ ((SerialRead st size prefill evs).2.2).head? = some (Action.prefillRead prefill)
    ∧ (ev1.elapsed_ms < total →
        Action.waitReadable ms
            ∈ (readIterStep st.timeout_ st.byte_time_ns_ total size b ev1).trace →
          ms ≤ total - ev1.elapsed_ms ∧ ms ≤ st.timeout_.inter_byte_timeout)
    ∧ (total ≤ ev2.elapsed_ms →
        readLoop st.timeout_ st.byte_time_ns_ total size b (ev2 :: rest) = (.ok b, []))
    ∧ (st2.is_open_ = false →
        SerialRead st2 size prefill evs
          = (st2, .err (.portNotOpened "Serial::read"), [])) := by
  refine ⟨?_, ?_, ?_, ?_, ?_⟩
  · simp [SerialRead, hopen, totalReadTimeout]
  · simp [SerialRead, hopen]
  · intro he hmem
    exact readIterStep_wait_bound st.timeout_ st.byte_time_ns_ total size b ev1 ms he hmem
  · intro he
    exact readLoop_deadline st.timeout_ st.byte_time_ns_ total size b ev2 rest hb he
  · intro hcl
    simp [SerialRead, hcl]

/-- Witness for C1: the contract applied to the concrete open state,
request 4, a 2-byte pre-fill, a timed-out iteration 10 ms in and a
late iteration 200 ms past a 100 ms deadline. -/
theorem c1_read_contract_witness :
    (demoOpen.is_open_ = true ∧ (1 : Nat) < 4)
    ∧ ((SerialRead demoOpen 4 2 []).2.1
        = (readLoop demoOpen.timeout_ demoOpen.byte_time_ns_
            (demoOpen.timeout_.read_timeout_constant
              + demoOpen.timeout_.read_timeout_multiplier * 4)
            4 (if 0 < (2 : Int) then (2 : Int).toNat else 0) []).1
      ∧ ((SerialRead demoOpen 4 2 []).2.2).head? = some (Action.prefillRead 2)
      ∧ (ReadIter.elapsed_ms ⟨10, .timedOut, none, 0⟩ < 100 →
          Action.waitReadable 90
              ∈ (readIterStep demoOpen.timeout_ demoOpen.byte_time_ns_ 100 4 1
                  ⟨10, .timedOut, none, 0⟩).trace →
            90 ≤ 100 - ReadIter.elapsed_ms ⟨10, .timedOut, none, 0⟩
              ∧ 90 ≤ demoOpen.timeout_.inter_byte_timeout)
      ∧ (100 ≤ ReadIter.elapsed_ms ⟨200, .timedOut, none, 0⟩ →
          readLoop demoOpen.timeout_ demoOpen.byte_time_ns_ 100 4 1
              (⟨200, .timedOut, none, 0⟩ :: []) = (.ok 1, []))
      ∧ (demoClosed.is_open_ = false →
          SerialRead demoClosed 4 2 []
            = (demoClosed, .err (.portNotOpened "Serial::read"), []))) :=
  ⟨⟨rfl, by decide⟩,
   c1_read_contract demoOpen 4 2 [] 100 1 ⟨10, .timedOut, none, 0⟩ ⟨200, .timedOut, none, 0⟩
     [] 90 demoClosed rfl (by decide)⟩

/-- C8: inside a ready read iteration, the coalescing byte-time sleep
appears in the trace exactly when the request exceeds one byte, the
inter-byte timeout equals the maximum sentinel and the known-available
plus already-read bytes are still short of the request; its duration is
the byte-time estimate times the number of still-missing bytes; and an
iteration whose wait did not report ready never sleeps — in particular
any non-sentinel inter-byte timeout disables the sleep. -/
theorem c8_coalescing (t : Timeout) (bt total size b : Nat) (ev ev2 : ReadIter)
    (avail ns : Nat)
    (he : ev.elapsed_ms < total) (hw : ev.wait = .ready) (hav : ev.avail = some avail)
    (hw2 : ev2.wait ≠ .ready) :
    (Action.byteSleep ns ∈ (readIterStep t bt total size b ev).trace
      ↔ (size > 1 ∧ t.inter_byte_timeout = Timeout.max ∧ avail + b < size
          ∧ ns = bt * (size - (avail + b))))
    ∧ Action.byteSleep ns ∉ (readIterStep t bt total size b ev2).trace := by
  constructor
  · rcases readIterStep_ready_some t bt total size b ev avail (by omega) hw hav with
      ⟨hc, heq⟩ | ⟨hc, heq⟩
    · rw [heq, readTransfer_trace]
      constructor
      · intro hmem
        simp at hmem
        exact ⟨hc.1, hc.2.1, hc.2.2, hmem⟩
      · rintro ⟨-, -, -, hns⟩
        simp [hns]
    · rw [heq, readTransfer_trace]
      constructor
      · intro hmem
        simp at hmem
      · rintro ⟨h1, h2, h3, -⟩
        exact absurd ⟨h1, h2, h3⟩ hc
  · rcases readIterStep_notReady_trace t bt total size b ev2 hw2 with h | h <;> simp [h]

/-- Witness for C8: a ready iteration with one byte known available and
one byte already read out of four requested sleeps for two byte times;
a timed-out iteration never sleeps. -/
theorem c8_coalescing_witness :
    ((5 : Nat) < 100 ∧ ReadIter.wait ⟨5, .ready, some 1, 1⟩ = .ready
      ∧ ReadIter.avail ⟨5, .ready, some 1, 1⟩ = some 1
      ∧ ReadIter.wait ⟨10, .timedOut, none, 0⟩ ≠ .ready)
    ∧ ((Action.byteSleep 2000
          ∈ (readIterStep demoTO 1000 100 4 1 ⟨5, .ready, some 1, 1⟩).trace
        ↔ (4 > 1 ∧ demoTO.inter_byte_timeout = Timeout.max ∧ 1 + 1 < 4
            ∧ 2000 = 1000 * (4 - (1 + 1))))
      ∧ Action.byteSleep 2000 ∉ (readIterStep demoTO 1000 100 4 1
          ⟨10, .timedOut, none, 0⟩).trace) :=
  ⟨⟨by decide, rfl, rfl, by decide⟩,
   c8_coalescing demoTO 1000 100 4 1 ⟨5, .ready, some 1, 1⟩ ⟨10, .timedOut, none, 0⟩ 1 2000
     (by decide) rfl rfl (by decide)⟩

/-- C9: under the model in which every single transfer attempt returns
at most the byte count it was asked for, Read and Write never return a
count above the requested size, and the over-read and over-write
invariant-violation branches are unreachable: the calls never raise
those errors. -/
theorem c9_no_overrun (st : SerialImpl) (size length : Nat) (prefill : Int)
    (evs : List ReadIter) (wevs : List WriteIter) (n m : Nat)
    (hpre : prefill ≤ (size : Int))
    (hbr : boundedReads size (if 0 < prefill then prefill.toNat else 0) evs = true)
    (hbw : boundedWrites length 0 wevs = true) :
    ((SerialRead st size prefill evs).2.1 = .ok n → n ≤ size)
    ∧ (SerialRead st size prefill evs).2.1 ≠ .err (.serialException overReadMsg)
    ∧ ((SerialWrite st length wevs).2.1 = .ok m → m ≤ length)
    ∧ (SerialWrite st length wevs).2.1 ≠ .err (.serialException overWriteMsg) := by
  have hb0 : (if 0 < prefill then prefill.toNat else 0) ≤ size := by
    split
    · exact Int.toNat_le.mpr hpre
    · omega
  by_cases hopen : st.is_open_ = false
  · refine ⟨?_, ?_, ?_, ?_⟩ <;> simp [SerialRead, SerialWrite, hopen]
  · have heqr : (SerialRead st size prefill evs).2.1
        = (readLoop st.timeout_ st.byte_time_ns_ (totalReadTimeout st.timeout_ size) size
            (if 0 < prefill then prefill.toNat else 0) evs).1 := by
      simp [SerialRead, hopen]
    have heqw : (SerialWrite st length wevs).2.1
        = (writeLoop (totalWriteTimeout st.timeout_ length) length 0 wevs).1 := by
      simp [SerialWrite, hopen]
    have hr := readLoop_bounded st.timeout_ st.byte_time_ns_
      (totalReadTimeout st.timeout_ size) size evs _ hb0 hbr
    have hw := writeLoop_bounded (totalWriteTimeout st.timeout_ length) length wevs 0
      (by omega) hbw
    rw [heqr, heqw]
    exact ⟨hr.1 n, hr.2, hw.1 m, hw.2⟩

/-- Witness for C9: a 1-byte pre-fill and a single ready iteration
delivering the remaining 3 of 4 requested bytes; a single write
iteration delivering all 3 requested bytes. -/
theorem c9_no_overrun_witness :
    ((1 : Int) ≤ (4 : Nat)
      ∧ boundedReads 4 (if 0 < (1 : Int) then (1 : Int).toNat else 0)
          [⟨5, .ready, some 3, 3⟩] = true
      ∧ boundedWrites 3 0 [⟨5, .ready, 3⟩] = true)
    ∧ (((SerialRead demoOpen 4 1 [⟨5, .ready, some 3, 3⟩]).2.1 = .ok 4 → 4 ≤ 4)
      ∧ (SerialRead demoOpen 4 1 [⟨5, .ready, some 3, 3⟩]).2.1
          ≠ .err (.serialException overReadMsg)
      ∧ ((SerialWrite demoOpen 3 [⟨5, .ready, 3⟩]).2.1 = .ok 3 → 3 ≤ 3)
      ∧ (SerialWrite demoOpen 3 [⟨5, .ready, 3⟩]).2.1
          ≠ .err (.serialException overWriteMsg)) :=
  ⟨⟨by decide, by decide, by decide⟩,
   c9_no_overrun demoOpen 4 3 1 [⟨5, .ready, some 3, 3⟩] [⟨5, .ready, 3⟩] 4 3
     (by decide) (by decide) (by decide)⟩

end Atlas
